import Mathlib

/-!
Verification of the BDL synchronization core against its design notes.

The development shallowly embeds the parts of the source that the checked
properties are about:

* `src/bdl/item.py` — the `Item` value entity;
* `src/bdl/index.py` — the ordered, URL-keyed index store (`build_storename`,
  `has_item`, `store`, `rename`, schema validation and migration);
* `src/bdl/progress.py` — the progress tracker (`add`, `update`,
  `mark_finished`, `mark_failed`);
* `src/bdl/engine.py` — the engine registry resolver (`load_by_name`,
  `load_by_url`);
* `src/bdl/repository.py` — the orchestrator (`_connect`, `_update`).

Python dictionaries are embedded as association lists (first binding wins on
lookup), sqlite tables as lists of rows, the filesystem as a path/content
association list, and exceptions as explicit error values.  Format strings
are embedded pre-parsed as lists of literal and substitution-key parts.
-/

namespace BDL

/-- One unit of downloaded content (src/bdl/item.py, class `Item`), after
construction: `url` is the identity key, `metadata` the ordered string
mapping handed to storename templating, `tempfile` the optional spooled
payload path and `content` the in-memory payload.  The constructor's
derivation of `filename`/`extension` from the URL happens before any of the
operations modelled here and is therefore not re-modelled: fields hold the
post-construction values. -/
structure Item where
  url : String
  filename : String
  extension : String
  content : String
  hashed : String
  metadata : List (String × String)
  tempfile : Option String
deriving Repr, DecidableEq

/-- Lookup in the item metadata mapping (Python dict access). -/
def Item.getMeta (it : Item) (k : String) : Option String :=
  (it.metadata.find? (fun p => p.1 = k)).map (fun p => p.2)

/-- One part of a parsed Python format string: a literal run or a
substitution field `\x7bk\x7d`. -/
inductive TemplatePart where
  | lit (s : String)
  | key (k : String)
deriving Repr, DecidableEq

/-- A storename template, i.e. a parsed format string. -/
abbrev Template := List TemplatePart

/-- The initial storename template of `Index.__init__`
(src/bdl/index.py:150), the parsed form of the string
"\x7bposition\x7d.\x7bextension\x7d". -/
def defaultTemplate : Template := [.key "position", .lit ".", .key "extension"]

/-- `Index.build_storename` (src/bdl/index.py:323): the attribute mapping is
a `defaultdict(str)` holding `position`, `filename` and `extension`, then
updated with the item metadata (so metadata entries override the three
built-ins, and any other key yields the empty string); the template is
rendered with `format_map` over that mapping. -/
def storenameAttr (item : Item) (position : Nat) (k : String) : String :=
  match item.getMeta k with
  | some v => v
  | none =>
    if k = "position" then toString position
    else if k = "filename" then item.filename
    else if k = "extension" then item.extension
    else ""

/-- Rendering of `format_map`: the parts are rendered left to right and
concatenated. -/
def renderTemplate (attr : String → String) : Template → String
  | [] => ""
  | .lit s :: rest => s ++ renderTemplate attr rest
  | .key k :: rest => attr k ++ renderTemplate attr rest

def build_storename (item : Item) (position : Nat) (template : Template) : String :=
  renderTemplate (storenameAttr item position) template

/-- One row of the `bdlitems` table as `Index.store` writes it
(src/bdl/index.py:52). `metadata` keeps the mapping itself; the source
serializes it to JSON on write and decodes it on read, which round-trips. -/
structure Row where
  position : Nat
  url : String
  filename : String
  extension : String
  storename : String
  hashed : String
  metadata : List (String × String)
deriving Repr, DecidableEq

/-- The in-memory state of a loaded `Index` (src/bdl/index.py:139): the table
rows, the position counter seeded from the highest stored position, and the
private storename template. -/
structure IndexState where
  rows : List Row
  position : Nat
  template : Template
deriving Repr, DecidableEq

/-- A fresh `Index` instance over an empty table: counter `0`, template
`defaultTemplate` (src/bdl/index.py:149). -/
def initIndex : IndexState :=
  { rows := [], position := 0, template := defaultTemplate }

/-- The `template` property setter (src/bdl/index.py:158): assignments of
`None` are ignored, any other value replaces the template. -/
def setTemplate (s : IndexState) (v : Option Template) : IndexState :=
  match v with
  | none => s
  | some t => { s with template := t }

/-- The scan behind `query_has_item`: the position of the first row whose
`url` column equals the given URL. -/
def findPos (rows : List Row) (url : String) : Option Nat :=
  (rows.find? (fun r => r.url = url)).map (fun r => r.position)

/-- `Index.has_item` (src/bdl/index.py:210): the position of the first row
whose `url` column equals the item URL, if any.  `none` plays the role of
the `(False, -1)` return value. -/
def has_item (s : IndexState) (url : String) : Option Nat :=
  findPos s.rows url

/-- The filesystem visible to the index store: an association list from
paths to file contents. -/
abbrev FS := List (String × String)

/-- Read a file (`none` models FileNotFoundError on access). -/
def FS.read (fs : FS) (p : String) : Option String :=
  (fs.find? (fun e => e.1 = p)).map (fun e => e.2)

/-- Write (create or overwrite) a file. -/
def FS.write (fs : FS) (p c : String) : FS :=
  (fs.filter (fun e => e.1 ≠ p)) ++ [(p, c)]

/-- Delete a file. -/
def FS.remove (fs : FS) (p : String) : FS :=
  fs.filter (fun e => e.1 ≠ p)

/-- Python exceptions that the modelled index-store code can raise. -/
inductive PyErr where
  | attributeError (typeName fieldName : String)
  | typeError (message : String)
  | fileNotFoundError (path : String)
deriving Repr, DecidableEq

/-- The message used when a `PyErr` is stringified by an except clause. -/
def pyMessage : PyErr → String
  | .attributeError t f => "object of type " ++ t ++ " has no attribute " ++ f
  | .typeError m => m
  | .fileNotFoundError p => "No such file or directory: " ++ p

/-- `root = root is not None and root or '.'` (src/bdl/index.py:387):
`None` and the empty string are falsy, so both fall back to `"."`. -/
def effRoot (root : Option String) : String :=
  match root with
  | none => "."
  | some r => if r = "" then "." else r

/-- `os.path.join(root, name)` for a non-absolute `name`. -/
def joinPath (root name : String) : String := root ++ "/" ++ name

/-- Outcome of `Index.store`: the database state and filesystem are returned
even when the call raises, because in the source the sqlite mutation happens
before the disk write, so a failed write leaves the row behind. -/
structure StoreOut where
  idx : IndexState
  fs : FS
  result : Except PyErr (Option String)
deriving Repr

/-- The disk-write tail of `Index.store` (src/bdl/index.py:386).  In the
source `Item.has_tempfile` is a plain method, not a property, so the test
`if item.has_tempfile:` evaluates the bound method object, which is always
truthy: the `shutil.move` branch is always taken, and a null tempfile then
makes `shutil.move(None, fullpath)` raise TypeError; the in-memory-content
branch is unreachable.  Moving a spooled file that does not exist raises
FileNotFoundError. -/
def writeItemDisk (s : IndexState) (fs : FS) (it : Item) (root : Option String)
    (sn : String) : StoreOut :=
  let fullpath := joinPath (effRoot root) sn
  match it.tempfile with
  | none => ⟨s, fs, .error (.typeError "expected str, bytes or os.PathLike object, not NoneType")⟩
  | some t =>
    match FS.read fs t with
    | none => ⟨s, fs, .error (.fileNotFoundError t)⟩
    | some c => ⟨s, FS.write (FS.remove fs t) fullpath c, .ok (some sn)⟩

/-- `Index.store` (src/bdl/index.py:337).  The very first statement of the
source formats a debug message from `item.url`, so a null item raises
AttributeError before the `if item is None` guard below it can run; that
guard (and the `return None` it protects) is unreachable for a null item.
For a non-null item: an already-indexed URL with `update` false returns
`None` before any mutation; an already-indexed URL with `update` true
recomputes the storename at the existing position and rewrites the row's
`filename`, `extension`, `storename` and `metadata` columns in place
(`query_update_item`, src/bdl/index.py:57); a new URL is inserted at
position counter + 1 and the counter incremented.  Both mutating branches
then write the payload to `root/storename`. -/
def store (s : IndexState) (fs : FS) (item : Option Item) (root : Option String)
    (update : Bool) : StoreOut :=
  match item with
  | none => ⟨s, fs, .error (.attributeError "NoneType" "url")⟩
  | some it =>
    match has_item s it.url with
    | some pos =>
      if update then
        let sn := build_storename it pos s.template
        let rows := s.rows.map (fun r =>
          if r.url = it.url then
            { r with filename := it.filename, extension := it.extension,
                     storename := sn, metadata := it.metadata }
          else r)
        writeItemDisk { s with rows := rows } fs it root sn
      else ⟨s, fs, .ok none⟩
    | none =>
      let sn := build_storename it (s.position + 1) s.template
      let row : Row :=
        { position := s.position + 1, url := it.url, filename := it.filename,
          extension := it.extension, storename := sn, hashed := it.hashed,
          metadata := it.metadata }
      writeItemDisk { s with rows := s.rows ++ [row], position := s.position + 1 }
        fs it root sn

/-- The row that the insert branch of `Index.store` writes for a fresh URL:
next position, the item's columns, and the storename rendered at the new
position with the instance template. -/
def insertedRow (s : IndexState) (it : Item) : Row :=
  { position := s.position + 1, url := it.url, filename := it.filename,
    extension := it.extension,
    storename := build_storename it (s.position + 1) s.template,
    hashed := it.hashed, metadata := it.metadata }

/-- A sequence of `Index.store` calls, threading database and filesystem
state; each element carries the item and that call's `update` flag. -/
def store_seq (root : Option String) :
    IndexState → FS → List (Item × Bool) → IndexState × FS
  | s, fs, [] => (s, fs)
  | s, fs, (it, u) :: rest =>
    let o := store s fs (some it) root u
    store_seq root o.idx o.fs rest

/-- The highest position present in the table, `0` when empty: the value
`Index.load` seeds the position counter with (src/bdl/index.py:190). -/
def maxPos (rows : List Row) : Nat :=
  rows.foldl (fun a r => max a r.position) 0

/-- `template = template is not None and template or self.__template`
(src/bdl/index.py:405): a null template and the falsy empty template both
fall back to the instance template. -/
def effTemplate (s : IndexState) (t : Option Template) : Template :=
  match t with
  | none => s.template
  | some tv => if tv.isEmpty then s.template else tv

/-- Insertion step for sorting rows by position ascending. -/
def insertByPos (r : Row) : List Row → List Row
  | [] => [r]
  | a :: rest => if r.position ≤ a.position then r :: a :: rest else a :: insertByPos r rest

/-- Rows ordered by position ascending, as query_all_items returns them. -/
def sortByPos : List Row → List Row
  | [] => []
  | a :: rest => insertByPos a (sortByPos rest)

/-- The item that `Index.get_queried` rebuilds from a row
(src/bdl/index.py:268): content `None`, no tempfile, metadata decoded from
the row (decoding the serialized mapping round-trips here). -/
def rowItem (r : Row) : Item :=
  { url := r.url, filename := r.filename, extension := r.extension,
    content := "", hashed := r.hashed, metadata := r.metadata, tempfile := none }

/-- One iteration of the `Index.rename` loop (src/bdl/index.py:406): rewrite
the row (keyed by url) with the re-rendered storename, then move the file,
skipping a missing source (its FileNotFoundError is logged, not raised). -/
def renameStep (tmpl : Template) (rt : String) (acc : List Row × FS) (r : Row) :
    List Row × FS :=
  let it := rowItem r
  let sn := build_storename it r.position tmpl
  let table := acc.1.map (fun q =>
    if q.url = r.url then
      { q with filename := it.filename, extension := it.extension,
               storename := sn, metadata := it.metadata }
    else q)
  let src := joinPath rt r.storename
  let fs :=
    match FS.read acc.2 src with
    | none => acc.2
    | some c => FS.write (FS.remove acc.2 src) (joinPath rt sn) c
  (table, fs)

/-- `Index.rename` (src/bdl/index.py:398): iterate the position-ordered
snapshot of the table, updating rows and moving files.  On an empty table
`get_queried` (src/bdl/index.py:260) yields the pair `(None, 0)`, so the
first loop iteration calls `build_storename(None, 0, template)` and raises
AttributeError from `item.filename` before touching database or disk
(`_missing` guards against that null yield; `rename` does not). -/
def rename (s : IndexState) (fs : FS) (root : Option String) (t : Option Template) :
    Except PyErr (IndexState × FS) :=
  let tmpl := effTemplate s t
  let rt := effRoot root
  if s.rows.isEmpty then .error (.attributeError "NoneType" "filename")
  else
    let out := (sortByPos s.rows).foldl (renameStep tmpl rt) (s.rows, fs)
    .ok ({ s with rows := out.1 }, out.2)

/-! ### Index schema validation and migration (src/bdl/index.py:67, claim C5) -/

/-- One row of `pragma table_info` for a table: name, declared type, notnull
flag, default-value text and primary-key flag.  The cid column is the list
index and is compared positionally. -/
structure Column where
  name : String
  declType : String
  notnull : Bool
  dflt : Option String
  pk : Bool
deriving Repr, DecidableEq

/-- The reference schema obtained by executing `query_create_bdlitems`
(src/bdl/index.py:13) on an in-memory database.  The source misspells
DEFAULT in the url column declaration, so sqlite parses `TEXT DEFAUTL` as
the declared type and the bare NULL as a no-op column constraint, leaving
url with no default value. -/
def refColumns : List Column :=
  [ { name := "position", declType := "INTEGER", notnull := false, dflt := some "0", pk := true },
    { name := "url", declType := "TEXT DEFAUTL", notnull := false, dflt := none, pk := false },
    { name := "filename", declType := "TEXT", notnull := false, dflt := some "NULL", pk := false },
    { name := "extension", declType := "TEXT", notnull := false, dflt := some "NULL", pk := false },
    { name := "storename", declType := "TEXT", notnull := false, dflt := some "NULL", pk := false },
    { name := "hashed", declType := "TEXT", notnull := false, dflt := some "NULL", pk := false },
    { name := "metadata", declType := "TEXT", notnull := false, dflt := some "NULL", pk := false } ]

/-- A stored table: its live schema and its rows of nullable column values. -/
structure Table where
  columns : List Column
  rows : List (List (Option String))
deriving Repr, DecidableEq

/-- The backing sqlite database: named tables. -/
abbrev DBState := List (String × Table)

def lookupTable (db : DBState) (n : String) : Option Table :=
  (db.find? (fun p => p.1 = n)).map (fun p => p.2)

/-- `pragma table_info` output: the empty list for a missing table. -/
def tableColumns (db : DBState) (n : String) : List Column :=
  match lookupTable db n with
  | none => []
  | some t => t.columns

/-- The column diff of `Index.validate` (src/bdl/index.py:92): reference
columns are walked by index against the live schema; an index past the live
schema is a missing column, a mismatching tuple an invalid one.  First
argument is the live schema, second the reference schema. -/
def diffColumns : List Column → List Column → List String × List String
  | _, [] => ([], [])
  | [], r :: rs =>
    let d := diffColumns [] rs
    (r.name :: d.1, d.2)
  | l :: ls, r :: rs =>
    let d := diffColumns ls rs
    if l = r then d else (d.1, r.name :: d.2)

/-- Index-layer failures: `IndexDBError` wrapping an sqlite
OperationalError message, and `IndexDBSchemaError` with its missing and
invalid column name lists (src/bdl/exceptions.py:76). -/
inductive IndexFailure where
  | dbError (message : String)
  | schemaError (missing invalid : List String)
deriving Repr, DecidableEq

/-- `Index.validate` (src/bdl/index.py:67). -/
def validate (db : DBState) : Except IndexFailure Unit :=
  let d := diffColumns (tableColumns db "bdlitems") refColumns
  if d.1.length > 0 ∨ d.2.length > 0 then .error (.schemaError d.1 d.2) else .ok ()

/-- `ALTER TABLE src RENAME TO dst` (`_update_name`, src/bdl/index.py:111):
an absent source table or an already existing target table is an sqlite
OperationalError. -/
def renameTable (db : DBState) (src dst : String) : Except String DBState :=
  match lookupTable db src with
  | none => .error ("no such table: " ++ src)
  | some _ =>
    if (lookupTable db dst).isSome then
      .error ("there is already another table or index with this name: " ++ dst)
    else .ok (db.map (fun p => if p.1 = src then (dst, p.2) else p))

/-- `ALTER TABLE bdlitems ADD COLUMN ...`: every reference column that can
be added carries `DEFAULT NULL` or no default, so pre-existing rows are
extended with a null value. -/
def addColumn (t : Table) (c : Column) : Table :=
  { columns := t.columns ++ [c], rows := t.rows.map (fun r => r ++ [none]) }

def setTable (db : DBState) (n : String) (t : Table) : DBState :=
  db.map (fun p => if p.1 = n then (n, t) else p)

/-- `_update_schema` (src/bdl/index.py:115): one additive ALTER per
reference column index from the live schema length upward; altering a
missing table is an sqlite OperationalError. -/
def update_schema (db : DBState) : Except String DBState :=
  let toAdd := refColumns.drop (tableColumns db "bdlitems").length
  if toAdd.length = 0 then .ok db
  else
    match lookupTable db "bdlitems" with
    | none => .error "no such table: bdlitems"
    | some t => .ok (setTable db "bdlitems" (toAdd.foldl addColumn t))

/-- `Index.update` (src/bdl/index.py:102): the two migration procedures run
in order; the first sqlite OperationalError aborts the migration, wrapped
as an `IndexDBError`. -/
def db_update (db : DBState) : Except IndexFailure DBState :=
  match renameTable db "files" "bdlitems" with
  | .error m => .error (.dbError m)
  | .ok db1 =>
    match update_schema db1 with
    | .error m => .error (.dbError m)
    | .ok db2 => .ok db2

/-- The validate / migrate / re-validate sequence of `Index.load`
(src/bdl/index.py:176). -/
def db_load (db : DBState) : Except IndexFailure DBState :=
  match validate db with
  | .ok _ => .ok db
  | .error _ =>
    match db_update db with
    | .error e => .error e
    | .ok db2 =>
      match validate db2 with
      | .error e => .error e
      | .ok _ => .ok db2

/-! ### Progress tracker (src/bdl/progress.py, claim C7) -/

/-- One progress entry (src/bdl/progress.py:70): url, begin and end
timestamps (-1 when unset) and the percentage. -/
structure PEntry where
  url : String
  beginTime : Int
  endTime : Int
  percentage : Int
deriving Repr, DecidableEq

/-- The full tracker state (src/bdl/progress.py:26): the entry list, the
in-flight / finished / failed position lists, the expected count and the
operation name. -/
structure ProgressState where
  entries : List PEntry
  currents : List Nat
  finished : List Nat
  failed : List Nat
  count : Int
  opName : Option String
deriving Repr, DecidableEq

/-- `Progress.reset`, also the state of a fresh tracker. -/
def progressInit : ProgressState :=
  { entries := [], currents := [], finished := [], failed := [], count := 0, opName := none }

/-- `Progress.add` (src/bdl/progress.py:57).  The recorded in-flight
position is computed before the append: length minus one of the old entry
list, or 0 when it is empty.  `p > 0 and t or -1` evaluates to `t` only
when both operands are truthy. -/
def progressAdd (s : ProgressState) (url : String) (percentage : Int) (curtime : Int) :
    ProgressState :=
  let curpos := if s.entries.length > 0 then s.entries.length - 1 else 0
  let e : PEntry :=
    { url := url,
      beginTime := if percentage > 0 ∧ curtime ≠ 0 then curtime else -1,
      endTime := if percentage < 100 ∧ curtime ≠ 0 then curtime else -1,
      percentage := percentage }
  { s with entries := s.entries ++ [e], currents := s.currents ++ [curpos] }

/-- `list.remove` wrapped in `try/except ValueError: pass` — drop the first
occurrence, or leave the list unchanged when the element is absent. -/
def removeFirst (l : List Nat) (x : Nat) : List Nat :=
  match l with
  | [] => []
  | a :: rest => if a = x then rest else a :: removeFirst rest x

/-- The loop of `Progress.__mark` (src/bdl/progress.py:85): the position
counter is incremented before the URL comparison, so the entry at list
index i is handled under position i + 1.  `dest` is the new container
(`none` for a bare update, `some true` for finished, `some false` for
failed); `pct` is the percentage keyword argument when present.  The
accumulator is (currents, finished, failed). -/
def markGo (url : String) (dest : Option Bool) (pct : Option Int) :
    List PEntry → Nat → List Nat × List Nat × List Nat →
    List PEntry × (List Nat × List Nat × List Nat)
  | [], _, acc => ([], acc)
  | e :: rest, pos, acc =>
    let pos1 := pos + 1
    if e.url = url then
      let acc1 :=
        match dest with
        | none => acc
        | some true => (removeFirst acc.1 pos1, acc.2.1 ++ [pos1], acc.2.2)
        | some false => (removeFirst acc.1 pos1, acc.2.1, acc.2.2 ++ [pos1])
      let e1 := match pct with | none => e | some p => { e with percentage := p }
      let r := markGo url dest pct rest pos1 acc1
      (e1 :: r.1, r.2)
    else
      let r := markGo url dest pct rest pos1 acc
      (e :: r.1, r.2)

/-- `Progress.__mark` (src/bdl/progress.py:77). -/
def progressMark (s : ProgressState) (url : String) (dest : Option Bool)
    (pct : Option Int) : ProgressState :=
  let r := markGo url dest pct s.entries 0 (s.currents, s.finished, s.failed)
  { s with entries := r.1, currents := r.2.1, finished := r.2.2.1, failed := r.2.2.2 }

/-- `Progress.update` (src/bdl/progress.py:101). -/
def progressUpdate (s : ProgressState) (url : String) (percentage : Int) :
    ProgressState :=
  progressMark s url none (some percentage)

/-- `Progress.mark_finished` (src/bdl/progress.py:110). -/
def mark_finished (s : ProgressState) (url : String) : ProgressState :=
  progressMark s url (some true) none

/-- `Progress.mark_failed` (src/bdl/progress.py:118). -/
def mark_failed (s : ProgressState) (url : String) : ProgressState :=
  progressMark s url (some false) none

/-! ### Engine registry and URL resolution (src/bdl/engine.py, claim C9) -/

/-- Characters allowed in a URL scheme by `urllib.parse`. -/
def schemeChar (c : Char) : Bool :=
  c.isAlpha || c.isDigit || c == '+' || c == '-' || c == '.'

/-- Split a character list at the first occurrence of `c`. -/
def splitFirst (c : Char) : List Char → Option (List Char × List Char)
  | [] => none
  | a :: rest =>
    if a = c then some ([], rest)
    else
      match splitFirst c rest with
      | none => none
      | some d => some (a :: d.1, d.2)

/-- Scheme stripping of `urllib.parse.urlsplit`: the text before the first
colon is removed when it is a nonempty run of scheme characters. -/
def dropScheme (cs : List Char) : List Char :=
  match splitFirst ':' cs with
  | none => cs
  | some d => if d.1.length > 0 ∧ d.1.all schemeChar then d.2 else cs

/-- The netloc (host component) that `urllib.parse.urlparse(url)` yields:
present only after a leading double slash, extending to the next slash,
question mark or hash. -/
def netlocOf (url : String) : String :=
  match dropScheme url.toList with
  | '/' :: '/' :: rest =>
    String.mk (rest.takeWhile (fun c => !(c == '/' || c == '?' || c == '#')))
  | _ => ""

/-- One `(url-pattern, engine-name)` registration rule (`NetlocRegex`,
src/bdl/engine.py:20). -/
structure NetlocRegex where
  url_regex : String
  engine_name : String
deriving Repr, DecidableEq

/-- The process-wide registry populated by `preload` (src/bdl/engine.py:18):
engine name to module, and netloc to its registration-ordered rule list. -/
structure Registry where
  by_name : List (String × String)
  by_netloc : List (String × List NetlocRegex)
deriving Repr, DecidableEq

def lookupStr {α : Type} (l : List (String × α)) (k : String) : Option α :=
  (l.find? (fun p => p.1 = k)).map (fun p => p.2)

/-- Failures of engine resolution: `InvalidURLError` and `EngineLoadError`
(src/bdl/exceptions.py). -/
inductive ResolveFailure where
  | invalidURL (url : String)
  | engineLoad (engine_name : Option String) (message : String)
deriving Repr, DecidableEq

/-- `load_by_name` (src/bdl/engine.py:187): an unregistered name is an
`EngineLoadError`; a registered one imports and returns its module (that
importing step is modelled as returning the module name). -/
def load_by_name (reg : Registry) (name : String) : Except ResolveFailure String :=
  match lookupStr reg.by_name name with
  | none => .error (.engineLoad (some name) "Engine does not exists")
  | some m => .ok m

/-- The first-match scan of a netloc rule list; `rmatch pat url` stands for
`re.match(pat, url) is not None` applied to the full URL. -/
def firstRule (rmatch : String → String → Bool) (url : String) :
    List NetlocRegex → Option NetlocRegex
  | [] => none
  | r :: rest => if rmatch r.url_regex url then some r else firstRule rmatch url rest

/-- `load_by_url` (src/bdl/engine.py:211): an empty netloc raises
`InvalidURLError`; an unknown netloc is a KeyError caught and re-raised as
an `EngineLoadError` (unsupported site); a known netloc resolves through
the first rule whose pattern matches the full URL, or fails with an
`EngineLoadError` (unsupported URL) when no rule matches. -/
def load_by_url (rmatch : String → String → Bool) (reg : Registry) (url : String) :
    Except ResolveFailure String :=
  let netloc := netlocOf url
  if netloc.length ≤ 0 then .error (.invalidURL url)
  else
    match lookupStr reg.by_netloc netloc with
    | none => .error (.engineLoad none ("Unsupported site: " ++ netloc))
    | some rules =>
      match firstRule rmatch url rules with
      | none =>
        .error (.engineLoad none ("Unsupported URL " ++ url ++ " for site " ++ netloc))
      | some r => load_by_name reg r.engine_name

/-! ### Repository connect (src/bdl/repository.py:192, claim C8) -/

/-- The exception class names defined in src/bdl/exceptions.py, which the
star import of src/bdl/repository.py brings into scope. -/
def definedExceptionClasses : List String :=
  ["BDLError", "InvalidURLError", "ConnectError",
   "RepoError", "RepoConfigError", "RepoLoadError", "RepoUpdateError", "RepoStopError",
   "ConfigError", "ConfigContentError",
   "IndexDBError", "IndexDBSchemaError",
   "EngineError", "EngineLoadError", "EngineStructureError", "EngineNetworkError",
   "EngineContentError", "EngineAuthError",
   "DownloadError", "DownloadTimeoutError"]

/-- A raise statement as the caller observes it: either the named BDL
exception, or — when the class name is defined nowhere — the NameError that
evaluating the raise expression produces instead. -/
inductive RaisedError where
  | bdl (className : String) (message : String)
  | nameError (missingName : String)
deriving Repr, DecidableEq

/-- Evaluating `raise C(name, message)`: the class name is resolved first,
so an undefined class name degenerates into a NameError. -/
def raiseClass (className : String) (message : String) : RaisedError :=
  if className ∈ definedExceptionClasses then .bdl className message
  else .nameError className

/-- The inputs `Repository._connect` reads (src/bdl/repository.py:192): the
attributes checked up front, the computed paths, and the directories and
files that exist before the call. -/
structure ConnectEnv where
  url : Option String
  path : Option String
  engine_module : Option String
  bdlpath : String
  configpath : String
  indexpath : String
  dirs : List String
  files : List String
deriving Repr, DecidableEq

/-- What `_connect` left behind: the filesystem and the error the caller
observes, if any. -/
structure ConnectOut where
  dirs : List String
  files : List String
  raised : Option RaisedError
deriving Repr, DecidableEq

/-- `Repository._connect` (src/bdl/repository.py:192): attribute presence
checks, then `os.makedirs(self.bdlpath)` whose FileExistsError is answered
by raising `RepoConnectError` — a class no module defines, so the raise
itself degenerates to a NameError; on success the engine hook runs, the
configuration file is written and the index file is created. -/
def repo_connect (env : ConnectEnv) : ConnectOut :=
  if env.url.isNone then
    ⟨env.dirs, env.files, some (raiseClass "RepoConnectError" "Missing URL")⟩
  else if env.path.isNone then
    ⟨env.dirs, env.files, some (raiseClass "RepoConnectError" "Missing path")⟩
  else if env.engine_module.isNone then
    ⟨env.dirs, env.files, some (raiseClass "RepoConnectError" "Missing engine module")⟩
  else if env.bdlpath ∈ env.dirs then
    ⟨env.dirs, env.files, some (raiseClass "RepoConnectError" "Repository already exists")⟩
  else
    let files1 := env.files ++ [env.configpath]
    let files2 := if env.indexpath ∈ files1 then files1 else files1 ++ [env.indexpath]
    ⟨env.dirs ++ [env.bdlpath], files2, none⟩

/-! ### Repository update (src/bdl/repository.py:239, claim C1) -/

/-- What the engine updater sequence produces, one iterator step at a time:
an item (or a tolerated `None`), or an exception escaping the step — an
`EngineError`, the `RepoStopError` injected by the interrupt handler, or
any other exception. -/
inductive UEvent where
  | yieldItem (it : Option Item)
  | engineFailure (message : String)
  | stopRaised
  | otherFailure (message : String)
deriving Repr, DecidableEq

/-- The externally visible steps of one `_update` run, in order. -/
inductive UAction where
  | stored (url : String)
  | commitIndex
  | saveConfig
  | raised (message : String)
deriving Repr, DecidableEq

/-- How the item loop ended. -/
inductive LoopExit where
  | completed
  | stopped
  | failed (message : String)
deriving Repr, DecidableEq

/-- The state and observable actions the loop produced. -/
structure LoopOut where
  idx : IndexState
  fs : FS
  acts : List UAction
  exitCode : LoopExit
deriving Repr

/-- The item loop of `Repository._update` (src/bdl/repository.py:288).  The
iterator is advanced first, so an exception thrown while producing the next
element wins over a pending stop request; the stop flag is consulted next —
the countdown reaching `some 0` means `self.__state` has `stop` set — and a
surviving non-null item is stored, null items being only logged.
`EngineError` and any other exception leave the loop as a failure;
`RepoStopError` leaves it as a cancellation; a store that raises does so
after its database mutation, which is kept. -/
def run_loop (root : Option String) (upd : Bool) :
    IndexState → FS → List UEvent → Option Nat → LoopOut
  | idx, fs, [], _ => ⟨idx, fs, [], .completed⟩
  | idx, fs, ev :: rest, stopCountdown =>
    match ev with
    | .engineFailure m => ⟨idx, fs, [], .failed m⟩
    | .otherFailure m => ⟨idx, fs, [], .failed m⟩
    | .stopRaised => ⟨idx, fs, [], .stopped⟩
    | .yieldItem it =>
      if stopCountdown = some 0 then ⟨idx, fs, [], .stopped⟩
      else
        match it with
        | none => run_loop root upd idx fs rest (stopCountdown.map (fun d => d - 1))
        | some item =>
          let o := store idx fs (some item) root upd
          match o.result with
          | .error e => ⟨o.idx, o.fs, [], .failed (pyMessage e)⟩
          | .ok _ =>
            let r := run_loop root upd o.idx o.fs rest (stopCountdown.map (fun d => d - 1))
            ⟨r.idx, r.fs, .stored item.url :: r.acts, r.exitCode⟩

/-- The per-run inputs of `Repository._update` once a mode has selected the
counter/updater pair: the loaded index and filesystem, the repository root,
the mode's `index_update` flag, the configured template (possibly null),
the counter result and the engine reachability. -/
structure UpdateCtx where
  idx : IndexState
  fs : FS
  root : Option String
  index_update : Bool
  repoTemplate : Option Template
  count : Int
  reachable : Bool
deriving Repr

/-- One finished `_update` run: final state, the ordered observable trace,
and the error surfaced to the caller (`some m` models re-raising
`RepoUpdateError(name, m)`), if any. -/
structure UpdateOut where
  idx : IndexState
  fs : FS
  trace : List UAction
  errorOut : Option String
deriving Repr

/-- The translation of the loop outcome into what the caller observes:
`EngineError` and every other exception are re-raised wrapped as
`RepoUpdateError` (the `raised` action and `errorOut`), while
`RepoStopError` and a clean exhaustion are both plain success; the
`finally` block places `index.commit()` and the configuration write before
any re-raise in the trace. -/
def finishUpdate (r : LoopOut) : UpdateOut :=
  match r.exitCode with
  | .failed m =>
    { idx := r.idx, fs := r.fs,
      trace := r.acts ++ [.commitIndex, .saveConfig, .raised m],
      errorOut := some m }
  | _ =>
    { idx := r.idx, fs := r.fs,
      trace := r.acts ++ [.commitIndex, .saveConfig], errorOut := none }

/-- `Repository._update` (src/bdl/repository.py:239) for a fixed mode: the
reachability gate, the template assignment into the index, the count gate,
the item loop, and the translation of its outcome through `finishUpdate`. -/
def run_update (ctx : UpdateCtx) (events : List UEvent) (stopAt : Option Nat) :
    UpdateOut :=
  if ctx.reachable = false then
    { idx := ctx.idx, fs := ctx.fs,
      trace := [.raised "Repository is not reachable"],
      errorOut := some "Repository is not reachable" }
  else if ctx.count = 0 then
    { idx := setTemplate ctx.idx ctx.repoTemplate, fs := ctx.fs,
      trace := [.commitIndex, .saveConfig], errorOut := none }
  else
    finishUpdate (run_loop ctx.root ctx.index_update
      (setTemplate ctx.idx ctx.repoTemplate) ctx.fs events stopAt)

/-- Identification of the two non-failure loop outcomes: a run cancelled by
the stop flag or by RepoStopError is reported to the caller exactly like a
completed run. -/
def collapseExit : LoopExit → LoopExit
  | .stopped => .completed
  | e => e

/-! ### Concrete instances used in witnesses and counterexamples -/

/-- A reachable update context over an empty index. -/
def updateCtxExample : UpdateCtx :=
  { idx := initIndex, fs := [], root := some "/r", index_update := false,
    repoTemplate := none, count := 2, reachable := true }

/-- A connect environment in which the local repository already exists at
the target path (the `.bdl` directory is present). -/
def connectEnvExisting : ConnectEnv :=
  { url := some "http://example.com/x", path := some "/r",
    engine_module := some "bdl.engines.e", bdlpath := "/r/.bdl",
    configpath := "/r/.bdl/config.json", indexpath := "/r/.bdl/index.sqlite",
    dirs := ["/r", "/r/.bdl"], files := [] }

/-- A concrete pattern matcher standing in for `re.match`: the pattern
matches when it is a prefix of the URL. -/
def prefixMatch : String → String → Bool := fun p u => p.toList.isPrefixOf u.toList

/-- A small registry with two engines and two known netlocs. -/
def registryExample : Registry :=
  { by_name := [("e1", "bdl.engines.e1"), ("e2", "bdl.engines.e2")],
    by_netloc := [("example.com", [⟨"X", "e1"⟩, ⟨"http", "e2"⟩]),
                  ("other.com", [⟨"ftp", "e1"⟩])] }

/-- A legacy backing store: table still named `files`, holding only the
first three reference columns and one row. -/
def legacyDBExample : DBState :=
  [("files", ⟨refColumns.take 3, [[some "1", some "u", some "f"]]⟩)]

/-- A position column with a wrong declared type. -/
def invalidColumnExample : Column :=
  { name := "position", declType := "INT", notnull := false, dflt := some "0", pk := true }

/-- A legacy store whose position column does not match the reference. -/
def invalidDBExample : DBState := [("files", ⟨[invalidColumnExample], []⟩)]

/-- The state `invalidDBExample` reaches after the in-place migration. -/
def invalidDBMigrated : DBState :=
  [("bdlitems", ⟨invalidColumnExample :: refColumns.drop 1, []⟩)]

/-- Two fresh items with in-memory payloads. -/
def itemA : Item := ⟨"http://h/a.ext", "a", "ext", "", "h1", [], none⟩

def itemB : Item := ⟨"http://h/b.ext", "b", "ext", "", "h2", [], none⟩

/-- A one-row index whose counter is seeded at the highest position. -/
def rowU : Row := ⟨1, "u", "f", "e", "sn", "h", []⟩

def idxU : IndexState := ⟨[rowU], 1, defaultTemplate⟩

/-- An item re-fetched for the URL already held by `rowU`. -/
def itemU2 : Item := ⟨"u", "f2", "e2", "", "h2", [("k", "v")], none⟩

/-! ## Helper lemmas -/

theorem renderTemplate_append (attr : String → String) (l1 l2 : Template) :
    renderTemplate attr (l1 ++ l2) = renderTemplate attr l1 ++ renderTemplate attr l2 := by
  induction l1 with
  | nil => simp [renderTemplate]
  | cons p rest ih =>
    cases p <;> simp [renderTemplate, ih, String.append_assoc]

theorem writeItemDisk_idx (s : IndexState) (fs : FS) (it : Item) (root : Option String)
    (sn : String) : (writeItemDisk s fs it root sn).idx = s := by
  simp only [writeItemDisk]
  split
  · rfl
  · split <;> rfl

theorem findPos_append (rows1 rows2 : List Row) (url : String) :
    findPos (rows1 ++ rows2) url = (findPos rows1 url).or (findPos rows2 url) := by
  simp only [findPos, List.find?_append]
  cases List.find? (fun r => decide (r.url = url)) rows1 <;> rfl

theorem store_ignores_existing (s : IndexState) (fs : FS) (root : Option String)
    (it : Item) (pos : Nat) (h : has_item s it.url = some pos) :
    store s fs (some it) root false = ⟨s, fs, .ok none⟩ := by
  simp [store, h]

/-! ## Claim theorems -/

/-- Claim C6: `build_storename` with the default template, position 3 and an
item of extension "ext" whose metadata does not shadow the built-in keys
yields "3.ext"; and a substitution key that is neither `position`,
`filename`, `extension` nor a metadata key of the item renders as the empty
string — the rendered template equals the concatenation of the renderings
of the surrounding parts, and no error is possible. -/
theorem C6_template_round_trip :
    (∀ it : Item, it.extension = "ext" → it.getMeta "position" = none →
      it.getMeta "extension" = none →
      build_storename it 3 defaultTemplate = "3.ext") ∧
    (∀ (it : Item) (position : Nat) (k : String) (pre post : Template),
      it.getMeta k = none → k ≠ "position" → k ≠ "filename" → k ≠ "extension" →
      build_storename it position (pre ++ .key k :: post) =
        build_storename it position pre ++ build_storename it position post) := by
  constructor
  · intro it hx hp he
    simp [build_storename, defaultTemplate, renderTemplate, storenameAttr, hp, he, hx]
    decide
  · intro it position k pre post hm hp hf he
    unfold build_storename
    rw [renderTemplate_append]
    congr 1
    simp [renderTemplate, storenameAttr, hm, hp, hf, he]

/-- Witness for C6 at a concrete item, key and template. -/
theorem C6_template_round_trip_witness :
    build_storename ⟨"http://h/a.ext", "a", "ext", "", "", [], none⟩ 3 defaultTemplate
        = "3.ext" ∧
    build_storename ⟨"http://h/a.ext", "a", "ext", "", "", [], none⟩ 7
        ([.lit "x"] ++ .key "missing" :: [.lit "y"]) =
      build_storename ⟨"http://h/a.ext", "a", "ext", "", "", [], none⟩ 7 [.lit "x"] ++
        build_storename ⟨"http://h/a.ext", "a", "ext", "", "", [], none⟩ 7 [.lit "y"] :=
  ⟨C6_template_round_trip.1 _ rfl rfl rfl,
   C6_template_round_trip.2 _ 7 "missing" [.lit "x"] [.lit "y"] rfl
     (by decide) (by decide) (by decide)⟩

/-- Claim C4 (refuted by the source — code bug): `store` with a null item
raises AttributeError for every state, root and update flag, because the
debug-log statement dereferences `item.url` before the null guard; the
design notes say it is a silent no-op that returns null. The state and the
disk are indeed left unchanged. -/
theorem C4_store_none_raises (s : IndexState) (fs : FS) (root : Option String)
    (update : Bool) :
    store s fs none root update = ⟨s, fs, .error (.attributeError "NoneType" "url")⟩ :=
  rfl

/-- Claim C3: a second `store` of an item with an already stored URL and
`update = false` returns null and leaves both the index state and the
filesystem of the first call untouched (the first call having stored a
fresh item with a spooled payload). -/
theorem C3_store_idempotent (s : IndexState) (fs : FS) (root : Option String)
    (it1 it2 : Item) (t c : String)
    (hurl : it2.url = it1.url)
    (hfresh : has_item s it1.url = none)
    (htmp : it1.tempfile = some t)
    (hread : FS.read fs t = some c) :
    (store s fs (some it1) root false).result =
      .ok (some (build_storename it1 (s.position + 1) s.template)) ∧
    store (store s fs (some it1) root false).idx (store s fs (some it1) root false).fs
        (some it2) root false =
      ⟨(store s fs (some it1) root false).idx, (store s fs (some it1) root false).fs,
        .ok none⟩ := by
  have h1 : store s fs (some it1) root false =
      writeItemDisk
        { s with rows := s.rows ++ [insertedRow s it1], position := s.position + 1 }
        fs it1 root (build_storename it1 (s.position + 1) s.template) := by
    simp [store, hfresh, insertedRow]
  have hfind : List.find? (fun r => decide (r.url = it1.url)) s.rows = none := by
    simpa [has_item, findPos, Option.map_eq_none'] using hfresh
  constructor
  · rw [h1]
    simp [writeItemDisk, htmp, hread]
  · have hidx : (store s fs (some it1) root false).idx =
        { s with rows := s.rows ++ [insertedRow s it1], position := s.position + 1 } := by
      rw [h1, writeItemDisk_idx]
    have hfound : has_item (store s fs (some it1) root false).idx it2.url =
        some (s.position + 1) := by
      rw [hidx, hurl]
      simp [has_item, findPos, List.find?_append, hfind, insertedRow, List.find?]
    exact store_ignores_existing _ _ _ _ _ hfound

/-- Witness for C3 at a concrete index, filesystem and pair of items. -/
theorem C3_store_idempotent_witness :
    ((store initIndex [("/tmp/t1", "c1")]
        (some ⟨"http://h/a.ext", "a", "ext", "", "h1", [], some "/tmp/t1"⟩)
        (some "/r") false).result =
      .ok (some (build_storename
        ⟨"http://h/a.ext", "a", "ext", "", "h1", [], some "/tmp/t1"⟩ 1
        initIndex.template))) ∧
    (store
        (store initIndex [("/tmp/t1", "c1")]
          (some ⟨"http://h/a.ext", "a", "ext", "", "h1", [], some "/tmp/t1"⟩)
          (some "/r") false).idx
        (store initIndex [("/tmp/t1", "c1")]
          (some ⟨"http://h/a.ext", "a", "ext", "", "h1", [], some "/tmp/t1"⟩)
          (some "/r") false).fs
        (some ⟨"http://h/a.ext", "b", "bin", "", "h2", [], none⟩) (some "/r") false =
      ⟨(store initIndex [("/tmp/t1", "c1")]
          (some ⟨"http://h/a.ext", "a", "ext", "", "h1", [], some "/tmp/t1"⟩)
          (some "/r") false).idx,
        (store initIndex [("/tmp/t1", "c1")]
          (some ⟨"http://h/a.ext", "a", "ext", "", "h1", [], some "/tmp/t1"⟩)
          (some "/r") false).fs,
        .ok none⟩) :=
  C3_store_idempotent initIndex [("/tmp/t1", "c1")] (some "/r")
    ⟨"http://h/a.ext", "a", "ext", "", "h1", [], some "/tmp/t1"⟩
    ⟨"http://h/a.ext", "b", "bin", "", "h2", [], none⟩
    "/tmp/t1" "c1" rfl rfl rfl rfl

/-- Claim C10: the index template starts as the default
"\x7bposition\x7d.\x7bextension\x7d" template and a null assignment through
the property setter is ignored, so storing after a null template assignment
still renders the storename from the previously held template, and
`rename` called with a null template behaves exactly as if called with the
current instance template. -/
theorem C10_template_never_null :
    initIndex.template = defaultTemplate ∧
    (∀ s : IndexState, setTemplate s none = s) ∧
    (∀ (s : IndexState) (fs : FS) (it : Item) (root : Option String) (u : Bool),
      has_item s it.url = none →
      (store (setTemplate s none) fs (some it) root u).idx.rows =
        s.rows ++ [insertedRow s it]) ∧
    (∀ (s : IndexState) (fs : FS) (root : Option String),
      rename s fs root none = rename s fs root (some s.template)) := by
  refine ⟨rfl, fun s => rfl, ?_, ?_⟩
  · intro s fs it root u h
    have hst : store (setTemplate s none) fs (some it) root u =
        writeItemDisk
          { s with rows := s.rows ++ [insertedRow s it], position := s.position + 1 }
          fs it root (build_storename it (s.position + 1) s.template) := by
      simp [setTemplate, store, h, insertedRow]
    rw [hst, writeItemDisk_idx]
  · intro s fs root
    simp [rename, effTemplate]

/-- Witness for C10 at a concrete index state, item and filesystem; the
rename conjunct is instantiated on the non-empty one-row index `idxU`,
where the source rename actually runs its loop. -/
theorem C10_template_never_null_witness :
    initIndex.template = defaultTemplate ∧
    setTemplate initIndex none = initIndex ∧
    (store (setTemplate initIndex none) []
        (some ⟨"http://h/a.ext", "a", "ext", "", "h1", [], some "/tmp/t1"⟩)
        (some "/r") false).idx.rows =
      initIndex.rows ++
        [insertedRow initIndex ⟨"http://h/a.ext", "a", "ext", "", "h1", [], some "/tmp/t1"⟩] ∧
    rename idxU [("/r/sn", "c")] (some "/r") none =
      rename idxU [("/r/sn", "c")] (some "/r") (some idxU.template) :=
  ⟨C10_template_never_null.1,
   C10_template_never_null.2.1 initIndex,
   C10_template_never_null.2.2.1 initIndex []
     ⟨"http://h/a.ext", "a", "ext", "", "h1", [], some "/tmp/t1"⟩ (some "/r") false rfl,
   C10_template_never_null.2.2.2 idxU [("/r/sn", "c")] (some "/r")⟩

/-- Claim C7 (refuted in its first half — code bug): after `add("a")` the
entry for "a" sits at list index 0 and the in-flight list records
position 0, but the mark loop computes the one-based position 1, so the
removal from the in-flight list silently fails (`currents` still holds 0,
the index of the entry of "a") while the out-of-range position 1 is
appended to `finished`.  The second half of the claim does hold: marking or
updating a URL that was never added leaves the tracker unchanged. -/
theorem C7_mark_finished_code_bug :
    (mark_finished (progressAdd progressInit "a" 0 1) "a").currents = [0] ∧
    (mark_finished (progressAdd progressInit "a" 0 1) "a").finished = [1] ∧
    (mark_finished (progressAdd progressInit "a" 0 1) "a").entries =
      [{ url := "a", beginTime := -1, endTime := 1, percentage := 0 }] ∧
    mark_finished progressInit "zzz" = progressInit ∧
    mark_failed progressInit "zzz" = progressInit ∧
    progressUpdate progressInit "zzz" 50 = progressInit := by
  refine ⟨?_, ?_, ?_, ?_, ?_, ?_⟩ <;> rfl

/-- Claim C8 (code bug): when the local repository already exists at the
target path, `_connect` indeed creates no configuration file and no index —
but the error the caller observes is a NameError, not a ConnectError-family
exception, because the class `RepoConnectError` named by the raise
statement is defined nowhere in the package. -/
theorem C8_connect_existing_raises_nameerror :
    repo_connect connectEnvExisting =
      ⟨connectEnvExisting.dirs, connectEnvExisting.files,
        some (.nameError "RepoConnectError")⟩ := by
  rfl

theorem stringLengthZero {s : String} (h : s.length = 0) : s = "" := by
  cases s with
  | mk data =>
    cases data with
    | nil => rfl
    | cons a l => simp [String.length] at h

theorem firstRule_first (rmatch : String → String → Bool) (url : String)
    (pre post : List NetlocRegex) (r : NetlocRegex)
    (hpre : ∀ q ∈ pre, rmatch q.url_regex url = false)
    (hr : rmatch r.url_regex url = true) :
    firstRule rmatch url (pre ++ r :: post) = some r := by
  induction pre with
  | nil => simp [firstRule, hr]
  | cons a rest ih =>
    have ha := hpre a (by simp)
    simp only [List.cons_append, firstRule, ha, Bool.false_eq_true, if_false]
    exact ih (fun q hq => hpre q (by simp [hq]))

theorem firstRule_no_match (rmatch : String → String → Bool) (url : String)
    (rules : List NetlocRegex)
    (h : ∀ q ∈ rules, rmatch q.url_regex url = false) :
    firstRule rmatch url rules = none := by
  induction rules with
  | nil => rfl
  | cons a rest ih =>
    have ha := h a (by simp)
    simp only [firstRule, ha, Bool.false_eq_true, if_false]
    exact ih (fun q hq => h q (by simp [hq]))

/-- Claim C9: URL resolution fails with InvalidURL exactly when the parsed
URL has no host component; with a known host it resolves through the first
rule, in registration order, whose pattern matches the full URL; an unknown
host or an exhausted rule list yields an EngineLoadError (unsupported site,
respectively unsupported URL), which is a different error from InvalidURL. -/
theorem C9_resolve_by_url :
    (∀ (rmatch : String → String → Bool) (reg : Registry) (url : String),
      netlocOf url = "" → load_by_url rmatch reg url = .error (.invalidURL url)) ∧
    (∀ (rmatch : String → String → Bool) (reg : Registry) (url : String)
      (pre post : List NetlocRegex) (r : NetlocRegex),
      netlocOf url ≠ "" →
      lookupStr reg.by_netloc (netlocOf url) = some (pre ++ r :: post) →
      (∀ q ∈ pre, rmatch q.url_regex url = false) →
      rmatch r.url_regex url = true →
      load_by_url rmatch reg url = load_by_name reg r.engine_name) ∧
    (∀ (rmatch : String → String → Bool) (reg : Registry) (url : String),
      netlocOf url ≠ "" →
      lookupStr reg.by_netloc (netlocOf url) = none →
      load_by_url rmatch reg url =
        .error (.engineLoad none ("Unsupported site: " ++ netlocOf url))) ∧
    (∀ (rmatch : String → String → Bool) (reg : Registry) (url : String)
      (rules : List NetlocRegex),
      netlocOf url ≠ "" →
      lookupStr reg.by_netloc (netlocOf url) = some rules →
      (∀ q ∈ rules, rmatch q.url_regex url = false) →
      load_by_url rmatch reg url =
        .error (.engineLoad none
          ("Unsupported URL " ++ url ++ " for site " ++ netlocOf url))) ∧
    (∀ (n : Option String) (m u : String),
      (ResolveFailure.engineLoad n m) ≠ .invalidURL u) := by
  refine ⟨?_, ?_, ?_, ?_, ?_⟩
  · intro rm reg url h
    simp [load_by_url, h]
  · intro rm reg url pre post r hn hl hpre hr
    have hlen : ¬ (netlocOf url).length ≤ 0 := fun hle =>
      hn (stringLengthZero (Nat.le_zero.mp hle))
    rw [load_by_url, if_neg hlen, hl]
    simp only [firstRule_first rm url pre post r hpre hr]
  · intro rm reg url hn hl
    have hlen : ¬ (netlocOf url).length ≤ 0 := fun hle =>
      hn (stringLengthZero (Nat.le_zero.mp hle))
    rw [load_by_url, if_neg hlen, hl]
  · intro rm reg url rules hn hl hno
    have hlen : ¬ (netlocOf url).length ≤ 0 := fun hle =>
      hn (stringLengthZero (Nat.le_zero.mp hle))
    rw [load_by_url, if_neg hlen, hl]
    simp only [firstRule_no_match rm url rules hno]
  · intro n m u h
    exact ResolveFailure.noConfusion h

/-- Witness for C9: each branch exercised on the example registry with the
prefix pattern matcher. -/
theorem C9_resolve_by_url_witness :
    load_by_url prefixMatch registryExample "nohost" = .error (.invalidURL "nohost") ∧
    load_by_url prefixMatch registryExample "http://example.com/a" =
      load_by_name registryExample "e2" ∧
    load_by_url prefixMatch registryExample "http://unknown.com/" =
      .error (.engineLoad none "Unsupported site: unknown.com") ∧
    load_by_url prefixMatch registryExample "http://other.com/a" =
      .error (.engineLoad none
        "Unsupported URL http://other.com/a for site other.com") ∧
    (ResolveFailure.engineLoad none "m") ≠ .invalidURL "u" :=
  ⟨C9_resolve_by_url.1 prefixMatch registryExample "nohost" rfl,
   C9_resolve_by_url.2.1 prefixMatch registryExample "http://example.com/a"
     [⟨"X", "e1"⟩] [] ⟨"http", "e2"⟩ (by decide) rfl (by decide) (by decide),
   C9_resolve_by_url.2.2.1 prefixMatch registryExample "http://unknown.com/"
     (by decide) rfl,
   C9_resolve_by_url.2.2.2.1 prefixMatch registryExample "http://other.com/a"
     [⟨"ftp", "e1"⟩] (by decide) rfl (by decide),
   C9_resolve_by_url.2.2.2.2 none "m" "u"⟩

theorem diffColumns_nil (l : List Column) :
    diffColumns [] l = (l.map Column.name, []) := by
  induction l with
  | nil => rfl
  | cons a rest ih => simp [diffColumns, ih]

theorem diffColumns_refl (l : List Column) : diffColumns l l = ([], []) := by
  induction l with
  | nil => rfl
  | cons a rest ih => simp [diffColumns, ih]

theorem foldl_addColumn (toAdd : List Column) (t : Table) :
    toAdd.foldl addColumn t =
      { columns := t.columns ++ toAdd,
        rows := t.rows.map (fun r => r ++ List.replicate toAdd.length none) } := by
  induction toAdd generalizing t with
  | nil =>
    cases t with
    | mk cols rows => simp
  | cons c rest ih =>
    rw [List.foldl_cons, ih]
    cases t with
    | mk cols rows =>
      simp only [addColumn, List.map_map, List.append_assoc, List.singleton_append,
        List.length_cons, Table.mk.injEq, true_and]
      apply List.map_congr_left
      intro r hr
      simp [List.append_assoc, List.replicate_succ]

/-- Claim C5: a legacy backing store — the table under its legacy name
`files` holding a compatible prefix of the reference columns — fails the
first schema validation, is migrated in place (rename of the legacy table,
then one additive ALTER per missing column), re-validates cleanly, and
every pre-existing row survives with its original values, padded with
nulls; and whenever the first validation fails, the migration succeeds, and
the schema is still invalid afterwards, `load` fails with the schema error
naming the missing and invalid columns. -/
theorem C5_schema_migration :
    (∀ (k : Nat) (rows : List (List (Option String))),
      0 < k → k ≤ refColumns.length →
      db_load [("files", ⟨refColumns.take k, rows⟩)] =
        .ok [("bdlitems",
          ⟨refColumns,
            rows.map (fun r => r ++ List.replicate (refColumns.length - k) none)⟩)] ∧
      validate [("bdlitems",
          ⟨refColumns,
            rows.map (fun r => r ++ List.replicate (refColumns.length - k) none)⟩)] =
        .ok () ∧
      (∀ r ∈ rows,
        (r ++ List.replicate (refColumns.length - k) none).take r.length = r)) ∧
    (∀ (db db2 : DBState) (e : IndexFailure) (m inv : List String),
      validate db = .error e →
      db_update db = .ok db2 →
      validate db2 = .error (.schemaError m inv) →
      db_load db = .error (.schemaError m inv)) := by
  constructor
  · intro k rows hk0 hk7
    have hmin : (refColumns.take k).length = k := by
      rw [List.length_take]
      exact Nat.min_eq_left hk7
    have e1 : validate [("files", (⟨refColumns.take k, rows⟩ : Table))] =
        .error (.schemaError
          ["position", "url", "filename", "extension", "storename", "hashed",
            "metadata"] []) := rfl
    have e2 : renameTable [("files", (⟨refColumns.take k, rows⟩ : Table))]
        "files" "bdlitems" =
        .ok [("bdlitems", (⟨refColumns.take k, rows⟩ : Table))] := rfl
    have hdlen : (refColumns.drop k).length = refColumns.length - k := by
      rw [List.length_drop]
    have e3 : update_schema [("bdlitems", (⟨refColumns.take k, rows⟩ : Table))] =
        .ok [("bdlitems",
          (⟨refColumns,
            rows.map (fun r => r ++ List.replicate (refColumns.length - k) none)⟩ :
            Table))] := by
      have htc : tableColumns [("bdlitems", (⟨refColumns.take k, rows⟩ : Table))]
          "bdlitems" = refColumns.take k := rfl
      unfold update_schema
      rw [htc, hmin]
      by_cases h7 : k = refColumns.length
      · subst h7
        have hd : refColumns.drop refColumns.length = [] := rfl
        rw [hd]
        simp
      · have hne : ¬ (refColumns.drop k).length = 0 := by
          rw [hdlen]
          have h7len : refColumns.length = 7 := rfl
          omega
        rw [if_neg hne]
        have hlk : lookupTable [("bdlitems", (⟨refColumns.take k, rows⟩ : Table))]
            "bdlitems" = some ⟨refColumns.take k, rows⟩ := rfl
        rw [hlk]
        simp only [foldl_addColumn, setTable, List.map_cons, List.map_nil]
        rw [List.take_append_drop, hdlen]
        simp
    have e4 : validate [("bdlitems",
        (⟨refColumns,
          rows.map (fun r => r ++ List.replicate (refColumns.length - k) none)⟩ :
          Table))] = .ok () := by
      have htc : tableColumns [("bdlitems",
          (⟨refColumns,
            rows.map (fun r => r ++ List.replicate (refColumns.length - k) none)⟩ :
            Table))] "bdlitems" = refColumns := rfl
      simp [validate, htc, diffColumns_refl]
    have e23 : db_update [("files", (⟨refColumns.take k, rows⟩ : Table))] =
        .ok [("bdlitems",
          (⟨refColumns,
            rows.map (fun r => r ++ List.replicate (refColumns.length - k) none)⟩ :
            Table))] := by
      unfold db_update
      rw [e2]
      simp only [e3]
    refine ⟨?_, e4, ?_⟩
    · unfold db_load
      rw [e1]
      simp only [e23, e4]
    · intro r hr
      exact List.take_left r _
  · intro db db2 e m inv h1 h2 h3
    simp only [db_load, h1, h2, h3]

/-- Witness for C5: the migration succeeds on a three-column legacy store,
and a legacy store with a wrongly typed position column migrates but then
fails validation with that column reported invalid. -/
theorem C5_schema_migration_witness :
    (db_load [("files", ⟨refColumns.take 3, [[some "1", some "u", some "f"]]⟩)] =
      .ok [("bdlitems",
        ⟨refColumns,
          [[some "1", some "u", some "f"]].map
            (fun r => r ++ List.replicate (refColumns.length - 3) none)⟩)] ∧
      validate [("bdlitems",
        ⟨refColumns,
          [[some "1", some "u", some "f"]].map
            (fun r => r ++ List.replicate (refColumns.length - 3) none)⟩)] = .ok () ∧
      (∀ r ∈ [[some "1", some "u", some "f"]],
        (r ++ List.replicate (refColumns.length - 3) none).take r.length = r)) ∧
    db_load invalidDBExample = .error (.schemaError [] ["position"]) :=
  ⟨C5_schema_migration.1 3 [[some "1", some "u", some "f"]]
     (by decide) (by decide),
   C5_schema_migration.2 invalidDBExample invalidDBMigrated
     (.schemaError
       ["position", "url", "filename", "extension", "storename", "hashed",
         "metadata"] [])
     [] ["position"] rfl rfl rfl⟩

theorem store_fresh_shape (s : IndexState) (fs : FS) (root : Option String)
    (it : Item) (u : Bool) (h : has_item s it.url = none) :
    (store s fs (some it) root u).idx =
      { s with rows := s.rows ++ [insertedRow s it], position := s.position + 1 } := by
  have hst : store s fs (some it) root u =
      writeItemDisk
        { s with rows := s.rows ++ [insertedRow s it], position := s.position + 1 }
        fs it root (build_storename it (s.position + 1) s.template) := by
    simp [store, h, insertedRow]
  rw [hst, writeItemDisk_idx]

theorem store_seq_fresh (root : Option String) (items : List (Item × Bool)) :
    ∀ (s : IndexState) (fs : FS),
      (List.map (fun p => p.1.url) items).Nodup →
      (∀ p ∈ items, has_item s p.1.url = none) →
      ∃ newRows : List Row,
        (store_seq root s fs items).1.rows = s.rows ++ newRows ∧
        (store_seq root s fs items).1.position = s.position + items.length ∧
        newRows.map (fun r => r.position) =
          List.range' (s.position + 1) items.length ∧
        newRows.map (fun r => r.url) = List.map (fun p => p.1.url) items := by
  induction items with
  | nil =>
    intro s fs _ _
    exact ⟨[], by simp [store_seq], by simp [store_seq], rfl, rfl⟩
  | cons hd rest ih =>
    intro s fs hnd hall
    obtain ⟨it, u⟩ := hd
    have h0 : has_item s it.url = none := hall (it, u) (by simp)
    have hidx := store_fresh_shape s fs root it u h0
    rw [List.map_cons] at hnd
    have hnd1 := List.nodup_cons.mp hnd
    have hrest : ∀ p ∈ rest,
        has_item (store s fs (some it) root u).idx p.1.url = none := by
      intro p hp
      rw [hidx]
      have hp0 : findPos s.rows p.1.url = none := hall p (by simp [hp])
      have hne : ¬ (insertedRow s it).url = p.1.url := by
        intro hequ
        exact hnd1.1
          ((by simpa [insertedRow] using hequ : it.url = p.1.url) ▸
            List.mem_map_of_mem (fun q => q.1.url) hp)
      have hone : findPos [insertedRow s it] p.1.url = none := by
        simp [findPos, List.find?, hne]
      show findPos (s.rows ++ [insertedRow s it]) p.1.url = none
      rw [findPos_append, hp0, hone]
      rfl
    obtain ⟨nr, hrows, hpos, hmap, hurls⟩ :=
      ih (store s fs (some it) root u).idx (store s fs (some it) root u).fs hnd1.2 hrest
    have hseq : store_seq root s fs ((it, u) :: rest) =
        store_seq root (store s fs (some it) root u).idx
          (store s fs (some it) root u).fs rest := rfl
    rw [hidx] at hrows hpos hmap
    refine ⟨insertedRow s it :: nr, ?_, ?_, ?_, ?_⟩
    · rw [hseq, hidx, hrows]
      simp
    · rw [hseq, hidx, hpos]
      simp only [List.length_cons]
      omega
    · rw [List.length_cons, List.range'_succ]
      simp only [List.map_cons, hmap]
      rfl
    · simp only [List.map_cons, hurls]
      rfl

/-- Claim C2: on a loaded index (counter seeded with the highest stored
position prevMax), a sequence of N store calls whose URLs are not yet
indexed appends rows whose positions are exactly prevMax+1 … prevMax+N in
insertion order, whatever the URLs and update flags; and a store with
update=true on an already indexed URL rewrites that row's filename,
extension, storename and metadata in place but never changes any row's
position or url and leaves the counter alone, so no position is reused. -/
theorem C2_position_assignment :
    (∀ (s : IndexState) (fs : FS) (root : Option String) (items : List (Item × Bool)),
      s.position = maxPos s.rows →
      (List.map (fun p => p.1.url) items).Nodup →
      (∀ p ∈ items, has_item s p.1.url = none) →
      ∃ newRows : List Row,
        (store_seq root s fs items).1.rows = s.rows ++ newRows ∧
        newRows.map (fun r => r.position) =
          List.range' (maxPos s.rows + 1) items.length ∧
        newRows.map (fun r => r.url) = List.map (fun p => p.1.url) items) ∧
    (∀ (s : IndexState) (fs : FS) (root : Option String) (it : Item) (pos : Nat),
      has_item s it.url = some pos →
      (store s fs (some it) root true).idx.rows =
        s.rows.map (fun r =>
          if r.url = it.url then
            { r with filename := it.filename, extension := it.extension,
                     storename := build_storename it pos s.template,
                     metadata := it.metadata }
          else r) ∧
      (store s fs (some it) root true).idx.rows.map (fun r => (r.position, r.url)) =
        s.rows.map (fun r => (r.position, r.url)) ∧
      (store s fs (some it) root true).idx.position = s.position) := by
  constructor
  · intro s fs root items hmax hnd hall
    obtain ⟨nr, hrows, hpos, hmap, hurls⟩ := store_seq_fresh root items s fs hnd hall
    exact ⟨nr, hrows, by rw [← hmax]; exact hmap, hurls⟩
  · intro s fs root it pos h
    have hst : store s fs (some it) root true =
        writeItemDisk
          { s with rows := s.rows.map (fun r =>
              if r.url = it.url then
                { r with filename := it.filename, extension := it.extension,
                         storename := build_storename it pos s.template,
                         metadata := it.metadata }
              else r) }
          fs it root (build_storename it pos s.template) := by
      simp [store, h]
    rw [hst, writeItemDisk_idx]
    refine ⟨rfl, ?_, rfl⟩
    rw [List.map_map]
    apply List.map_congr_left
    intro r hr
    by_cases hu : r.url = it.url <;> simp [hu]

/-- Witness for C2: two fresh items on an empty loaded index get positions
1 and 2; an update-in-place on a one-row index rewrites the row but keeps
position, url and the counter. -/
theorem C2_position_assignment_witness :
    (∃ newRows : List Row,
      (store_seq (some "/r") initIndex []
        [(itemA, false), (itemB, false)]).1.rows = initIndex.rows ++ newRows ∧
      newRows.map (fun r => r.position) =
        List.range' (maxPos initIndex.rows + 1) [(itemA, false), (itemB, false)].length ∧
      newRows.map (fun r => r.url) =
        List.map (fun p => p.1.url) [(itemA, false), (itemB, false)]) ∧
    ((store idxU [] (some itemU2) (some "/r") true).idx.rows =
      idxU.rows.map (fun r =>
        if r.url = itemU2.url then
          { r with filename := itemU2.filename, extension := itemU2.extension,
                   storename := build_storename itemU2 1 idxU.template,
                   metadata := itemU2.metadata }
        else r) ∧
      (store idxU [] (some itemU2) (some "/r") true).idx.rows.map
          (fun r => (r.position, r.url)) =
        idxU.rows.map (fun r => (r.position, r.url)) ∧
      (store idxU [] (some itemU2) (some "/r") true).idx.position = idxU.position) :=
  ⟨C2_position_assignment.1 initIndex [] (some "/r")
     [(itemA, false), (itemB, false)] rfl (by decide) (by decide),
   C2_position_assignment.2 idxU [] (some "/r") itemU2 1 rfl⟩

theorem run_loop_acts_stored (root : Option String) (upd : Bool)
    (events : List UEvent) :
    ∀ (idx : IndexState) (fs : FS) (sc : Option Nat),
      ∀ a ∈ (run_loop root upd idx fs events sc).acts, ∃ u, a = UAction.stored u := by
  induction events with
  | nil =>
    intro idx fs sc a ha
    simp [run_loop] at ha
  | cons ev rest ih =>
    intro idx fs sc a ha
    cases ev with
    | engineFailure m => simp [run_loop] at ha
    | otherFailure m => simp [run_loop] at ha
    | stopRaised => simp [run_loop] at ha
    | yieldItem it =>
      simp only [run_loop] at ha
      by_cases hsc : sc = some 0
      · rw [if_pos hsc] at ha
        simp at ha
      · rw [if_neg hsc] at ha
        split at ha
        · exact ih _ _ _ a ha
        · split at ha
          · simp at ha
          · simp at ha
            rcases ha with h | h
            · exact ⟨_, h⟩
            · exact ih _ _ _ a h

theorem run_loop_stop_truncation (root : Option String) (upd : Bool)
    (events : List UEvent) :
    ∀ (idx : IndexState) (fs : FS) (k : Nat),
      (∀ ev, events.get? k = some ev → ∃ it, ev = UEvent.yieldItem it) →
      (run_loop root upd idx fs events (some k)).idx =
        (run_loop root upd idx fs (events.take k) none).idx ∧
      (run_loop root upd idx fs events (some k)).fs =
        (run_loop root upd idx fs (events.take k) none).fs ∧
      (run_loop root upd idx fs events (some k)).acts =
        (run_loop root upd idx fs (events.take k) none).acts ∧
      collapseExit (run_loop root upd idx fs events (some k)).exitCode =
        collapseExit (run_loop root upd idx fs (events.take k) none).exitCode := by
  induction events with
  | nil =>
    intro idx fs k hk
    simp [run_loop, List.take_nil]
  | cons ev rest ih =>
    intro idx fs k hk
    cases k with
    | zero =>
      obtain ⟨it, hit⟩ := hk ev rfl
      subst hit
      simp [run_loop, List.take_zero, collapseExit]
    | succ j =>
      have hk1 : ∀ ev2, rest.get? j = some ev2 → ∃ it, ev2 = UEvent.yieldItem it := by
        intro ev2 h2
        exact hk ev2 (by simpa using h2)
      have hne : ¬ (some (j + 1) : Option Nat) = some 0 := by simp
      have hnone : ¬ (none : Option Nat) = some 0 := by simp
      cases ev with
      | engineFailure m => simp [run_loop, List.take_succ_cons]
      | otherFailure m => simp [run_loop, List.take_succ_cons]
      | stopRaised => simp [run_loop, List.take_succ_cons]
      | yieldItem it =>
        cases it with
        | none =>
          simp only [run_loop, List.take_succ_cons, if_neg hne, if_neg hnone]
          exact ih idx fs j hk1
        | some item =>
          simp only [run_loop, List.take_succ_cons, if_neg hne, if_neg hnone]
          cases hres : (store idx fs (some item) root upd).result with
          | error e => exact ⟨rfl, rfl, rfl, rfl⟩
          | ok sn =>
            obtain ⟨h1, h2, h3, h4⟩ := ih (store idx fs (some item) root upd).idx
              (store idx fs (some item) root upd).fs j hk1
            exact ⟨h1, h2, congrArg (fun l => UAction.stored item.url :: l) h3, h4⟩

theorem run_loop_stopRaised_truncation (root : Option String) (upd : Bool) :
    ∀ (pre rest : List UEvent) (idx : IndexState) (fs : FS),
      (run_loop root upd idx fs (pre ++ UEvent.stopRaised :: rest) none).idx =
        (run_loop root upd idx fs pre none).idx ∧
      (run_loop root upd idx fs (pre ++ UEvent.stopRaised :: rest) none).fs =
        (run_loop root upd idx fs pre none).fs ∧
      (run_loop root upd idx fs (pre ++ UEvent.stopRaised :: rest) none).acts =
        (run_loop root upd idx fs pre none).acts ∧
      collapseExit
          (run_loop root upd idx fs (pre ++ UEvent.stopRaised :: rest) none).exitCode =
        collapseExit (run_loop root upd idx fs pre none).exitCode := by
  intro pre
  induction pre with
  | nil =>
    intro rest idx fs
    simp [run_loop, collapseExit]
  | cons ev pre1 ih =>
    intro rest idx fs
    have hnone : ¬ (none : Option Nat) = some 0 := by simp
    cases ev with
    | engineFailure m => simp [run_loop]
    | otherFailure m => simp [run_loop]
    | stopRaised => simp [run_loop, collapseExit]
    | yieldItem it =>
      cases it with
      | none =>
        simp only [List.cons_append, run_loop, if_neg hnone]
        exact ih rest idx fs
      | some item =>
        simp only [List.cons_append, run_loop, if_neg hnone]
        cases hres : (store idx fs (some item) root upd).result with
        | error e => exact ⟨rfl, rfl, rfl, rfl⟩
        | ok sn =>
          obtain ⟨h1, h2, h3, h4⟩ :=
            ih rest (store idx fs (some item) root upd).idx
              (store idx fs (some item) root upd).fs
          exact ⟨h1, h2, congrArg (fun l => UAction.stored item.url :: l) h3, h4⟩

theorem finishUpdate_failed (r : LoopOut) (m : String)
    (h : r.exitCode = .failed m) :
    finishUpdate r =
      { idx := r.idx, fs := r.fs,
        trace := r.acts ++ [.commitIndex, .saveConfig, .raised m],
        errorOut := some m } := by
  unfold finishUpdate
  rw [h]

theorem finishUpdate_completed (r : LoopOut) (h : r.exitCode = .completed) :
    finishUpdate r =
      { idx := r.idx, fs := r.fs, trace := r.acts ++ [.commitIndex, .saveConfig],
        errorOut := none } := by
  unfold finishUpdate
  rw [h]

theorem finishUpdate_stopped (r : LoopOut) (h : r.exitCode = .stopped) :
    finishUpdate r =
      { idx := r.idx, fs := r.fs, trace := r.acts ++ [.commitIndex, .saveConfig],
        errorOut := none } := by
  unfold finishUpdate
  rw [h]

theorem finishUpdate_congr (r1 r2 : LoopOut) (h1 : r1.idx = r2.idx)
    (h2 : r1.fs = r2.fs) (h3 : r1.acts = r2.acts)
    (h4 : collapseExit r1.exitCode = collapseExit r2.exitCode) :
    finishUpdate r1 = finishUpdate r2 := by
  unfold finishUpdate
  cases he1 : r1.exitCode <;> cases he2 : r2.exitCode <;>
    rw [he1, he2] at h4 <;> simp [collapseExit] at h4 <;>
    simp [h1, h2, h3, h4]

/-- Claim C1: over every update-class run — any `index_update` flag, hence
all four public operations — a non-cancellation failure of the updater or
of a store step surfaces exactly one error, wrapped as RepoUpdateError,
strictly after the index commit and the configuration write in the
observable trace, with only store actions before them; a run that surfaces
no error also ends with commit and config write after its store actions; a
run cancelled by the stop flag before consuming event k (the next produced
element being an item) is identical to the successful run over the first k
events; and a run interrupted by RepoStopError is identical to the run over
the events before it — cancellation is never reported as an error. -/
theorem C1_update_commit_and_cancellation :
    (∀ (ctx : UpdateCtx) (events : List UEvent) (stopAt : Option Nat) (m : String),
      ctx.reachable = true →
      (run_update ctx events stopAt).errorOut = some m →
      ∃ pre, (run_update ctx events stopAt).trace =
          pre ++ [.commitIndex, .saveConfig, .raised m] ∧
        ∀ a ∈ pre, ∃ u, a = UAction.stored u) ∧
    (∀ (ctx : UpdateCtx) (events : List UEvent) (stopAt : Option Nat),
      ctx.reachable = true →
      (run_update ctx events stopAt).errorOut = none →
      ∃ pre, (run_update ctx events stopAt).trace =
          pre ++ [.commitIndex, .saveConfig] ∧
        ∀ a ∈ pre, ∃ u, a = UAction.stored u) ∧
    (∀ (ctx : UpdateCtx) (events : List UEvent) (k : Nat),
      (∀ ev, events.get? k = some ev → ∃ it, ev = UEvent.yieldItem it) →
      run_update ctx events (some k) = run_update ctx (events.take k) none) ∧
    (∀ (ctx : UpdateCtx) (pre rest : List UEvent),
      run_update ctx (pre ++ UEvent.stopRaised :: rest) none =
        run_update ctx pre none) := by
  refine ⟨?_, ?_, ?_, ?_⟩
  · intro ctx events stopAt m hre herr
    have hr : ¬ ctx.reachable = false := by simp [hre]
    rw [run_update, if_neg hr] at herr ⊢
    by_cases hc : ctx.count = 0
    · rw [if_pos hc] at herr
      simp at herr
    · rw [if_neg hc] at herr ⊢
      cases he : (run_loop ctx.root ctx.index_update
          (setTemplate ctx.idx ctx.repoTemplate) ctx.fs events stopAt).exitCode with
      | completed =>
        rw [finishUpdate_completed _ he] at herr
        simp at herr
      | stopped =>
        rw [finishUpdate_stopped _ he] at herr
        simp at herr
      | failed m0 =>
        rw [finishUpdate_failed _ m0 he] at herr ⊢
        have hm : m0 = m := by simpa using herr
        subst hm
        refine ⟨(run_loop ctx.root ctx.index_update
            (setTemplate ctx.idx ctx.repoTemplate) ctx.fs events stopAt).acts, rfl, ?_⟩
        intro a ha
        exact run_loop_acts_stored ctx.root ctx.index_update events _ _ _ a ha
  · intro ctx events stopAt hre herr
    have hr : ¬ ctx.reachable = false := by simp [hre]
    rw [run_update, if_neg hr] at herr ⊢
    by_cases hc : ctx.count = 0
    · rw [if_pos hc]
      exact ⟨[], rfl, by intro a ha; simp at ha⟩
    · rw [if_neg hc] at herr ⊢
      cases he : (run_loop ctx.root ctx.index_update
          (setTemplate ctx.idx ctx.repoTemplate) ctx.fs events stopAt).exitCode with
      | completed =>
        rw [finishUpdate_completed _ he]
        refine ⟨(run_loop ctx.root ctx.index_update
            (setTemplate ctx.idx ctx.repoTemplate) ctx.fs events stopAt).acts, rfl, ?_⟩
        intro a ha
        exact run_loop_acts_stored ctx.root ctx.index_update events _ _ _ a ha
      | stopped =>
        rw [finishUpdate_stopped _ he]
        refine ⟨(run_loop ctx.root ctx.index_update
            (setTemplate ctx.idx ctx.repoTemplate) ctx.fs events stopAt).acts, rfl, ?_⟩
        intro a ha
        exact run_loop_acts_stored ctx.root ctx.index_update events _ _ _ a ha
      | failed m0 =>
        rw [finishUpdate_failed _ m0 he] at herr
        simp at herr
  · intro ctx events k hk
    rw [run_update, run_update]
    by_cases hr : ctx.reachable = false
    · simp [hr]
    · rw [if_neg hr, if_neg hr]
      by_cases hc : ctx.count = 0
      · simp [hc]
      · rw [if_neg hc, if_neg hc]
        obtain ⟨h1, h2, h3, h4⟩ := run_loop_stop_truncation ctx.root ctx.index_update
          events (setTemplate ctx.idx ctx.repoTemplate) ctx.fs k hk
        exact finishUpdate_congr _ _ h1 h2 h3 h4
  · intro ctx pre rest
    rw [run_update, run_update]
    by_cases hr : ctx.reachable = false
    · simp [hr]
    · rw [if_neg hr, if_neg hr]
      by_cases hc : ctx.count = 0
      · simp [hc]
      · rw [if_neg hc, if_neg hc]
        obtain ⟨h1, h2, h3, h4⟩ := run_loop_stopRaised_truncation ctx.root
          ctx.index_update pre rest (setTemplate ctx.idx ctx.repoTemplate) ctx.fs
        exact finishUpdate_congr _ _ h1 h2 h3 h4

/-- Witness for C1: a failing updater surfaces its error after commit and
config write; an empty run succeeds with commit and config write; a stop
flag set before the second item truncates the run to its first event; a
RepoStopError at the start equals the empty successful run. -/
theorem C1_update_commit_and_cancellation_witness :
    (∃ pre, (run_update updateCtxExample [.engineFailure "boom"] none).trace =
        pre ++ [.commitIndex, .saveConfig, .raised "boom"] ∧
      ∀ a ∈ pre, ∃ u, a = UAction.stored u) ∧
    (∃ pre, (run_update updateCtxExample [] none).trace =
        pre ++ [.commitIndex, .saveConfig] ∧
      ∀ a ∈ pre, ∃ u, a = UAction.stored u) ∧
    run_update updateCtxExample [.yieldItem none, .yieldItem none] (some 1) =
      run_update updateCtxExample ([.yieldItem none, .yieldItem none].take 1) none ∧
    run_update updateCtxExample ([] ++ UEvent.stopRaised :: []) none =
      run_update updateCtxExample [] none :=
  ⟨C1_update_commit_and_cancellation.1 updateCtxExample [.engineFailure "boom"] none
     "boom" rfl rfl,
   C1_update_commit_and_cancellation.2.1 updateCtxExample [] none rfl rfl,
   C1_update_commit_and_cancellation.2.2.1 updateCtxExample
     [.yieldItem none, .yieldItem none] 1
     (by intro ev h; exact ⟨none, by simpa using h.symm⟩),
   C1_update_commit_and_cancellation.2.2.2 updateCtxExample [] []⟩

end BDL
